import Mathlib

/-!
# Verification of the Truenat dashboard data engine (`src/utils.py`)

This file shallowly embeds the data-ingestion and aggregation engine of the
dashboard (`utils.py`: `parse_date`, `load_and_process_csv`,
`profile_id_analysis`, `lot_specific_analysis`, `trend_analysis`,
`weekly_analysis`) and proves/refutes the frozen claims about it.

Modelling conventions:

* A CSV cell is a `Cell`: a null (pandas `NaN`), a plain string, or a
  "date-like" string `"A-B-C"` (optionally carrying a `HH:MM:SS` time part),
  abstracted to its numeric triple.  Date-like and plain strings are disjoint
  classes, so a date-like cell never compares equal to a plain-string cell.
* pandas datetimes are `Date` values (year/month/day).  The time of day is
  parsed but never used downstream (the month/week bucket keys depend only on
  the calendar date), so it is not carried.
* Python floats are avoided: the percentage columns, whose values are always
  multiples of 0.01 (`round(x, 2)`), are represented in *hundredths*
  (`pct100 = 100 * value`), so `value ∈ [0, 100]` reads `pct100 ≤ 10000`.
  Python's `round` rounds exact midpoints to even; the model rounds them up.
  No claim depends on midpoint behaviour.
* Failures of library calls are modelled by `Option`/`Except`: a raised
  exception is `Except.error ()`, pandas `NaT` is `none`.
* String manipulation (`split('-')`, f-strings, `%` parsing, comparisons) is
  implemented structurally over `List Char` so that every definition is
  evaluable by the kernel.  Python string comparison is code-point
  lexicographic, as is the model's `strLe`.
* `DataFrame.sort_values` (single column, default `kind='quicksort'`) sorts
  correctly but leaves the order of tied keys implementation-defined (numpy's
  introsort is insertion-sort-stable only below its small-array threshold of
  about 16 elements).  The model determinizes it as a stable ascending sort —
  reversed for `ascending=False`, since pandas' `nargsort` reverses the
  ascending permutation (`indexer = indexer[::-1]`) — with NaN keys last
  (`na_position='last'`).  This determinization provably matches pandas on
  the small concrete tables evaluated here; the claim theorems rely on it
  only for membership, length and sortedness, which hold under any sort kind,
  except for the C6 counterexample, whose two-element tie is inside the
  regime where numpy's sort is insertion sort and hence stable.
* `profile_id_analysis` is wrapped in `@functools.lru_cache(maxsize=32)`;
  since its body reads the ambient session state, the memoisation is not
  transparent, so the memo table is modelled as explicit state threaded
  through the function (`ProfileCache`).
-/

/-- One CSV cell: pandas `NaN`, a plain string, or a date-like string
`"A-B-C"` / `"A-B-C HH:MM:SS"` abstracted to its numeric triple `(a, b, c)`
and a flag recording whether a time-of-day part is present. -/
inductive Cell where
  | null : Cell
  | str : String → Cell
  | dateStr : Nat → Nat → Nat → Bool → Cell
deriving DecidableEq

/-- A calendar date (the part of a pandas `Timestamp` the engine uses). -/
structure Date where
  year : Nat
  month : Nat
  day : Nat
deriving DecidableEq

/-! ## Structural string utilities (kernel-evaluable models of Python's) -/

/-- Code-point lexicographic `≤` on char lists: Python's string ordering. -/
def charListLe : List Char → List Char → Bool
  | [], _ => true
  | _ :: _, [] => false
  | a :: as, b :: bs => if a < b then true else if b < a then false else charListLe as bs

/-- Python's `s <= t` on strings (code-point lexicographic). -/
def strLe (s t : String) : Bool := charListLe s.data t.data

/-- Helper for `splitDash`, accumulating the current chunk in reverse. -/
def splitDashAux : List Char → List Char → List (List Char)
  | [], cur => [cur.reverse]
  | c :: rest, cur =>
    if c = '-' then cur.reverse :: splitDashAux rest []
    else splitDashAux rest (c :: cur)

/-- Python's `s.split('-')` (always returns at least one part). -/
def splitDash (s : String) : List String := (splitDashAux s.data []).map String.mk

/-- The value of a decimal digit character, if it is one. -/
def digitVal (c : Char) : Option Nat :=
  if '0' ≤ c ∧ c ≤ '9' then some (c.toNat - 48) else none

/-- Parse a string of exactly four decimal digits (the `%Y` field of
CPython's `strptime`, whose regex is `\d\d\d\d`). -/
def parse4Digits (s : String) : Option Nat :=
  match s.data with
  | [a, b, c, d] =>
    match digitVal a, digitVal b, digitVal c, digitVal d with
    | some x, some y, some z, some w => some (1000 * x + 100 * y + 10 * z + w)
    | _, _, _, _ => none
  | _ => none

/-- Parse a string of one or two decimal digits (the `%U`/`%m`-style fields,
matched by `strptime` with at most two digits). -/
def parse1or2Digits (s : String) : Option Nat :=
  match s.data with
  | [a] => digitVal a
  | [a, b] =>
    match digitVal a, digitVal b with
    | some x, some y => some (10 * x + y)
    | _, _ => none
  | _ => none

/-- The character of a decimal digit. -/
def digitChar (d : Nat) : Char := Char.ofNat (48 + d)

/-- Zero-padded two-digit rendering (`%02d`, for values < 100). -/
def pad2 (n : Nat) : String := String.mk [digitChar (n / 10 % 10), digitChar (n % 10)]

/-- Zero-padded four-digit rendering (`%Y` for the years pandas supports). -/
def pad4 (n : Nat) : String :=
  String.mk [digitChar (n / 1000 % 10), digitChar (n / 100 % 10),
             digitChar (n / 10 % 10), digitChar (n % 10)]

/-- Python's `', '.join` / `", ".join`-style joining with `", "`. -/
def joinCommaSpace : List String → String
  | [] => ""
  | [s] => s
  | s :: rest => s ++ ", " ++ joinCommaSpace rest

/-! ## Calendar arithmetic (proleptic Gregorian, as used by `datetime`) -/

/-- Gregorian leap-year test. -/
def isLeap (y : Nat) : Bool := (y % 4 == 0 && y % 100 != 0) || y % 400 == 0

/-- Number of days in a month. -/
def daysInMonth (y m : Nat) : Nat :=
  if m = 2 then (if isLeap y then 29 else 28)
  else if m = 4 ∨ m = 6 ∨ m = 9 ∨ m = 11 then 30
  else 31

/-- Days in year `y` strictly before month `m`. -/
def daysBeforeMonth (y m : Nat) : Nat :=
  let base : Nat :=
    match m with
    | 1 => 0 | 2 => 31 | 3 => 59 | 4 => 90 | 5 => 120 | 6 => 151
    | 7 => 181 | 8 => 212 | 9 => 243 | 10 => 273 | 11 => 304 | _ => 334
  if 3 ≤ m ∧ isLeap y then base + 1 else base

/-- One-based day of the year. -/
def dayOfYear (d : Date) : Nat := daysBeforeMonth d.year d.month + d.day

/-- Rata-die day number (0001-01-01 is day 1, proleptic Gregorian). -/
def rataDie (d : Date) : Nat :=
  let n := d.year - 1
  365 * n + n / 4 + n / 400 + dayOfYear d - n / 100

/-- Day of the week with Sunday = 0 (CPython's `%w`/`%U` convention).
0001-01-01 (rata die 1) was a Monday. -/
def weekdaySun0 (d : Date) : Nat := rataDie d % 7

/-- CPython `strftime('%U')`: week of the year with Sunday as first day;
days before the first Sunday are week 0. -/
def weekU (d : Date) : Nat := (dayOfYear d + 6 - weekdaySun0 d) / 7

/-- `strftime('%Y-%m')`: the month bucket key. -/
def monthKey (d : Date) : String := pad4 d.year ++ "-" ++ pad2 d.month

/-- `strftime('%Y-%U')`: the week bucket key. -/
def weekKey (d : Date) : String := pad4 d.year ++ "-" ++ pad2 (weekU d)

/-- Inverse calendar function: the date `z` days after 1970-01-01
(Hinnant's `civil_from_days`, floor divisions via `Int.fdiv`).  Years
before year 1 cannot arise from the program's inputs and are clamped by
`Int.toNat`. -/
def civilFromDays (z0 : Int) : Date :=
  let z := z0 + 719468
  let era := z.fdiv 146097
  let doe := z - era * 146097
  let yoe := (doe - doe.fdiv 1460 + doe.fdiv 36524 - doe.fdiv 146096).fdiv 365
  let y := yoe + era * 400
  let doy := doe - (365 * yoe + yoe.fdiv 4 - yoe.fdiv 100)
  let mp := (5 * doy + 2).fdiv 153
  let d := doy - (153 * mp + 2).fdiv 5 + 1
  let m := if mp < 10 then mp + 3 else mp - 9
  let yy := if m ≤ 2 then y + 1 else y
  ⟨yy.toNat, m.toNat, d.toNat⟩

/-- The date with the given (possibly non-positive) rata-die number. -/
def dateFromRataDie (rd : Int) : Date := civilFromDays (rd - 719163)

/-- `date + k days` (`pd.Timedelta(days=k)`). -/
def addDays (d : Date) (k : Nat) : Date := dateFromRataDie ((rataDie d : Int) + k)

/-- `strftime('%d-%m-%Y')`. -/
def fmtDmy (d : Date) : String := pad2 d.day ++ "-" ++ pad2 d.month ++ "-" ++ pad4 d.year

/-- CPython `_strptime._calc_julian_from_U_or_W` for a `%U` week number and a
Sunday-based day-of-week: the (possibly non-positive) day of the year. -/
def calcJulianFromU (year u dowSun0 : Nat) : Int :=
  let fw := weekdaySun0 ⟨year, 1, 1⟩
  let w0 := (7 - fw) % 7
  if u = 0 then 1 + (dowSun0 : Int) - (fw : Int)
  else 1 + (w0 : Int) + 7 * ((u : Int) - 1) + (dowSun0 : Int)

/-- `datetime.strptime(f"{year}-{u}-1", "%Y-%U-%w")`: the Monday of `%U`-week
`u` of `year` (day-of-week `1` = Monday in the Sunday-based `%w` scheme).
CPython's negative-julian year borrow is the same calendar-day arithmetic. -/
def strptimeWeekMonday (year u : Nat) : Date :=
  dateFromRataDie ((rataDie ⟨year, 1, 1⟩ : Int) + (calcJulianFromU year u 1 - 1))

/-- Parse the two split parts of a week key as `%Y` and `%U` and return the
Monday of that week; `none` models `strptime` raising `ValueError`. -/
def weekPartsToMonday (y u : String) : Option Date :=
  match parse4Digits y, parse1or2Digits u with
  | some yy, some uu => if uu ≤ 53 then some (strptimeWeekMonday yy uu) else none
  | _, _ => none

/-! ## Date parsing (models of `pd.to_datetime` and `parse_date`) -/

/-- Day/month/year plus a bound keeping years in `strftime`'s 4-digit range
(pandas `Timestamp`s only reach 2262 anyway). -/
def validDMY (y m d : Nat) : Bool :=
  1 ≤ m && m ≤ 12 && 1 ≤ d && d ≤ daysInMonth y m && y ≤ 9999

/-- `pd.to_datetime(x, format='%d-%m-%Y %H:%M:%S')`: the strict first attempt
of `parse_date`.  It requires the time part and reads the triple as
day-month-year; `none` models the raised `ValueError`. -/
def tryDMY : Cell → Option Date
  | Cell.dateStr a b c true => if validDMY c b a then some ⟨c, b, a⟩ else none
  | _ => none

/-- `pd.to_datetime(x)` with default inference (`dayfirst=False`), restricted
to the numeric-triple date strings of the `Cell` model: with a trailing
4-digit year the triple is read month-first, falling back to day-first when
the first number cannot be a month; with a leading 4-digit year it is read as
ISO year-month-day.  `none` models a parse failure (exception, or `NaT` under
`errors='coerce'`). -/
def to_datetime : Cell → Option Date
  | Cell.dateStr a b c _ =>
    if 1000 ≤ c then
      if validDMY c a b then some ⟨c, a, b⟩
      else if validDMY c b a then some ⟨c, b, a⟩
      else none
    else if 1000 ≤ a then
      if validDMY a b c then some ⟨a, b, c⟩ else none
    else none
  | _ => none

/-- `parse_date` (utils.py lines 11-23): try `%d-%m-%Y %H:%M:%S` first, then
the generic parse, then the permissive `errors='coerce'` parse; the first
success wins and the final fallback never raises (it yields `NaT = none`). -/
def parse_date (c : Cell) : Option Date :=
  match tryDMY c with
  | some d => some d
  | none =>
    match to_datetime c with
    | some d => some d
    | none => to_datetime c

/-! ## Percentages -/

/-- `round((numer / denom) * 100, 2)` represented in hundredths of a percent
(`0 if denom == 0` by the guard used at every call site):
`⌊10000 * numer / denom + 1/2⌋ = ⌊(20000 * numer + denom) / (2 * denom)⌋`. -/
def roundPct100 (numer denom : Nat) : Nat :=
  if 0 < denom then (20000 * numer + denom) / (2 * denom) else 0

/-! ## Cell-level semantics of pandas comparisons -/

/-- pandas `series == <python string>`: `NaN` compares unequal to everything;
a date-like cell is a different string than any plain string of the model. -/
def cellEqStr (c : Cell) (s : String) : Bool :=
  match c with
  | Cell.str t => t == s
  | _ => false

/-- pandas `series == <cell value>` (used with values drawn from the same
column by `unique()`): `NaN == NaN` is `False` in pandas. -/
def pandasEq (a b : Cell) : Bool :=
  match a, b with
  | Cell.null, _ => false
  | _, Cell.null => false
  | a, b => a == b

/-- `astype(str)` / display rendering of a cell (`NaN` prints as `"nan"`;
the original text padding of a date-like string is not retained by the
model, so it is rendered zero-padded). -/
def cellToStr : Cell → String
  | Cell.null => "nan"
  | Cell.str s => s
  | Cell.dateStr a b c t => pad2 a ++ "-" ++ pad2 b ++ "-" ++ pad4 c ++ (if t then " 00:00:00" else "")

/-- Is the cell pandas-missing (`NaN`)? -/
def isNullCell : Cell → Bool
  | Cell.null => true
  | _ => false

/-- pandas `Series.unique()` / `drop_duplicates()`: distinct values in order
of first appearance (`NaN` included once). -/
def pdUniqueAux {α : Type} [DecidableEq α] : List α → List α → List α
  | [], _ => []
  | x :: xs, seen => if x ∈ seen then pdUniqueAux xs seen else x :: pdUniqueAux xs (x :: seen)

/-- Distinct values of a list in order of first appearance. -/
def pdUnique {α : Type} [DecidableEq α] (l : List α) : List α := pdUniqueAux l []

/-! ## Stable sorting (model of single-column `sort_values` and `sorted`) -/

/-- Stable ascending sort by a string key (`sort_values(col)` on a string
column without missing values, and Python's `sorted`). -/
def stableSortByStrKey {α : Type} (key : α → String) (l : List α) : List α :=
  List.insertionSort (fun a b => strLe (key a) (key b) = true) l

/-- Stable ascending sort by a numeric key. -/
def stableSortByNatKey {α : Type} (key : α → Nat) (l : List α) : List α :=
  List.insertionSort (fun a b => key a ≤ key b) l

/-- `sort_values(col, ascending=False)` on a numeric column: pandas computes
the ascending `argsort` permutation and reverses it (`nargsort`:
`indexer = indexer[::-1]`).  The quicksort tie order is
implementation-defined; the model determinizes the ascending permutation as
stable, which matches numpy inside its small-array insertion-sort regime
(all concrete tables evaluated here). -/
def sortValuesDescByNatKey {α : Type} (key : α → Nat) (l : List α) : List α :=
  (stableSortByNatKey key l).reverse

/-- `sort_values(col)` on a column of cells: missing keys are placed last
(`na_position='last'`), the rest sorted by their string value.  The
quicksort tie order is implementation-defined; the model determinizes it as
stable, and no claim theorem depends on the tie order of this sort. -/
def sortValuesByCellKey {α : Type} (key : α → Cell) (l : List α) : List α :=
  stableSortByStrKey (fun a => cellToStr (key a)) (l.filter (fun a => !(isNullCell (key a))))
    ++ l.filter (fun a => isNullCell (key a))

/-! ## Record Parser and Dataset Builder (`load_and_process_csv`) -/

/-- One raw tabular input after `pd.read_csv` and header detection: a
rectangular grid of cells (`ncols` columns).  Header-name detection
(utils.py lines 44-51) only decides whether the first line is data; the
model takes the resulting data grid directly. -/
structure RawTable where
  ncols : Nat
  rows : List (List Cell)
deriving DecidableEq

/-- A normalized record before date conversion: the seven semantic fields
selected from positions 0, 1, 3, 4, 5, 8, 9 of a raw row. -/
structure RawRecord where
  test_date_time : Cell
  profile_id : Cell
  test_result : Cell
  test_status : Cell
  lab_name : Cell
  truelab_id : Cell
  lot : Cell
deriving DecidableEq

/-- Cell of a rectangular row at a position (rows have length `ncols`, so the
default is never reached for well-formed tables). -/
def getCell (row : List Cell) (i : Nat) : Cell := row.getD i Cell.null

/-- `data.iloc[:, [0, 1, 3, 4, 5, 8, 9]]` + positional rename: raises
`IndexError` (`none`) iff some required position is outside the table's
width, i.e. iff `ncols ≤ 9`. -/
def directSelect (t : RawTable) : Option (List RawRecord) :=
  if 9 < t.ncols then
    some (t.rows.map (fun row =>
      ⟨getCell row 0, getCell row 1, getCell row 3, getCell row 4,
       getCell row 5, getCell row 8, getCell row 9⟩))
  else none

/-- One field of the fallback construction: the source cell when the position
is inside the table's width, a null placeholder otherwise. -/
def fallbackField (t : RawTable) (row : List Cell) (i : Nat) : Cell :=
  if i < t.ncols then getCell row i else Cell.null

/-- The fallback of utils.py lines 75-83: build the normalized table
field-by-field, substituting null for positions beyond the width.  Total by
construction — it never throws. -/
def fallbackSelect (t : RawTable) : List RawRecord :=
  t.rows.map (fun row =>
    ⟨fallbackField t row 0, fallbackField t row 1, fallbackField t row 3,
     fallbackField t row 4, fallbackField t row 5, fallbackField t row 8,
     fallbackField t row 9⟩)

/-- Per-file processing: direct positional selection, falling back to the
field-by-field construction when it fails. -/
def processFile (t : RawTable) : List RawRecord :=
  match directSelect t with
  | some recs => recs
  | none => fallbackSelect t

/-- One record of the built Dataset: parsed timestamp, the six other cells,
and the derived month/week bucket keys. -/
structure Record where
  test_date_time : Date
  profile_id : Cell
  test_result : Cell
  test_status : Cell
  lab_name : Cell
  truelab_id : Cell
  lot : Cell
  month : String
  week : String
deriving DecidableEq

/-- The builder's per-row date conversion and key derivation:
`pd.to_datetime(col, errors='coerce')` followed by `dropna` means a row
survives iff the single permissive parse succeeds (utils.py lines 97-102). -/
def buildRecord (r : RawRecord) : Option Record :=
  match to_datetime r.test_date_time with
  | some d => some ⟨d, r.profile_id, r.test_result, r.test_status, r.lab_name,
      r.truelab_id, r.lot, monthKey d, weekKey d⟩
  | none => none

/-- `load_and_process_csv` (utils.py lines 25-104).  An unreadable file
(`pd.read_csv` raising) is a `none` entry of the input list: it is reported
and skipped.  `none` as the result models the `return None` branches; the
Dataset otherwise is the concatenation of the per-file normalized records,
keeping exactly the rows whose permissive date parse succeeds. -/
def load_and_process_csv (uploaded_files : List (Option RawTable)) : Option (List Record) :=
  if uploaded_files.isEmpty then none
  else
    let all_data := uploaded_files.filterMap (fun f => f.map processFile)
    if all_data.isEmpty then none
    else some (all_data.flatten.filterMap buildRecord)

/-! ## Filters (shared prologue of the four aggregation functions) -/

/-- `if selected_profile_id and selected_profile_id != "All": df[df['Profile_id'] == selected_profile_id]`
(Python truthiness: `None` and `""` skip the filter). -/
def profileFilter : Option String → List Record → List Record
  | some s, rows =>
    if s ≠ "" ∧ s ≠ "All" then rows.filter (fun r => cellEqStr r.profile_id s) else rows
  | none, rows => rows

/-- `if selected_lab and selected_lab != "All Labs": df[df['Lab_name'] == selected_lab]`. -/
def labFilter : Option String → List Record → List Record
  | some s, rows =>
    if s ≠ "" ∧ s ≠ "All Labs" then rows.filter (fun r => cellEqStr r.lab_name s) else rows
  | none, rows => rows

/-! ## Aggregation engine -/

/-- Sequencing of a fallible per-element computation over a list, modelling a
Python `for` loop that may raise: the first exception aborts the loop. -/
def exMap {α β : Type} (f : α → Except Unit β) : List α → Except Unit (List β)
  | [] => Except.ok []
  | x :: xs =>
    match f x with
    | Except.ok y =>
      match exMap f xs with
      | Except.ok ys => Except.ok (y :: ys)
      | Except.error e => Except.error e
    | Except.error e => Except.error e

/-- `value_counts().get(s, 0)` on the status column of a group. -/
def countStatus (s : String) (l : List Record) : Nat :=
  l.countP (fun r => cellEqStr r.test_status s)

/-- The ambient Streamlit session state, as far as `profile_id_analysis`
reads it (`st.session_state.data`). -/
structure SessionState where
  data : Option (List Record)

/-- The overall metrics dict of the Profile Summary. -/
structure ProfileSummary where
  total_runs : Nat
  total_invalids : Nat
  total_indeterminates : Nat
  overall_pct100 : Nat
deriving DecidableEq

/-- One row of the per-lab Profile Summary table. -/
structure LabRow where
  lab_name : Cell
  truelab_id : String
  total_tests : Nat
  total_detected : Nat
  total_invalid_indeterminate : Nat
  pct100 : Nat
  last_10_pct100 : Nat
deriving DecidableEq

/-- The body of `profile_id_analysis` (utils.py lines 112-194), i.e. the
computation its `@functools.lru_cache` wrapper runs on a cache miss.  The
function receives only a dataset *hash* (`df_hash`, the cache key, unread by
the body) and a profile filter; the dataset itself is read from the ambient
session state (`df = st.session_state.data`), so the body does not even take
`df_hash`.  The `last_10` percentage collapses the code's
`if not last_10.empty` guard and the division guard into `roundPct100`,
which already returns 0 for an empty denominator. -/
def profile_id_analysis_body (sess : SessionState) (selected_profile_id : Option String) :
    Option ProfileSummary × Option (List LabRow) :=
  match sess.data with
  | none => (none, none)
  | some df0 =>
    if df0.isEmpty then (none, none)
    else
      let df := profileFilter selected_profile_id df0
      if df.isEmpty then (none, none)
      else
        let total_runs := df.length
        let total_invalids := countStatus "Invalid" df
        let total_indeterminates := countStatus "Indeterminate" df
        let summary : ProfileSummary :=
          ⟨total_runs, total_invalids, total_indeterminates,
           roundPct100 (total_invalids + total_indeterminates) total_runs⟩
        let lab_data := (pdUnique (df.map (fun r => r.lab_name))).map (fun lab_name =>
          let lab_df := df.filter (fun r => pandasEq r.lab_name lab_name)
          let total_tests := lab_df.length
          let total_detected := lab_df.countP (fun r => cellEqStr r.test_result "Detected")
          let total_invalid := countStatus "Invalid" lab_df
          let total_indeterminate := countStatus "Indeterminate" lab_df
          let last_10 := lab_df.drop (lab_df.length - 10)
          let last_10_invalid := countStatus "Invalid" last_10
          let last_10_indeterminate := countStatus "Indeterminate" last_10
          ({ lab_name := lab_name
             truelab_id := joinCommaSpace ((pdUnique (lab_df.map (fun r => r.truelab_id))).map cellToStr)
             total_tests := total_tests
             total_detected := total_detected
             total_invalid_indeterminate := total_invalid + total_indeterminate
             pct100 := roundPct100 (total_invalid + total_indeterminate) total_tests
             last_10_pct100 := roundPct100 (last_10_invalid + last_10_indeterminate) last_10.length } : LabRow))
        (some summary, some lab_data)

/-- The memo table of `@functools.lru_cache(maxsize=32)` on
`profile_id_analysis`: entries keyed by the positional-argument tuple
`(df_hash, selected_profile_id)`, most recently used first. -/
structure ProfileCache where
  entries : List ((Int × Option String) × (Option ProfileSummary × Option (List LabRow)))
deriving DecidableEq

/-- A fresh process's cache: no entries. -/
def ProfileCache.empty : ProfileCache := ⟨[]⟩

/-- Cache lookup: the value stored under the key, if any. -/
def cacheLookup (c : ProfileCache) (k : Int × Option String) :
    Option (Option ProfileSummary × Option (List LabRow)) :=
  (c.entries.find? (fun e => e.1 == k)).map (fun e => e.2)

/-- On a hit, `lru_cache` moves the entry to the most-recently-used slot. -/
def cacheTouch (c : ProfileCache) (k : Int × Option String) : ProfileCache :=
  match c.entries.find? (fun e => e.1 == k) with
  | some e => ⟨e :: c.entries.filter (fun e2 => !(e2.1 == k))⟩
  | none => c

/-- On a miss, `lru_cache` stores the new entry and evicts the least
recently used one beyond `maxsize=32`. -/
def cacheInsert (c : ProfileCache) (k : Int × Option String)
    (v : Option ProfileSummary × Option (List LabRow)) : ProfileCache :=
  ⟨((k, v) :: c.entries).take 32⟩

/-- `profile_id_analysis` as the caller sees it: the
`@functools.lru_cache(maxsize=32)`-decorated function (utils.py line 112),
with the process-wide memo table threaded explicitly.  A warm entry for
`(df_hash, selected_profile_id)` is returned as-is — the body, and with it
the read of the ambient session Dataset, is skipped — otherwise the body
runs on the current session state and its result is cached. -/
def profile_id_analysis (cache : ProfileCache) (sess : SessionState) (df_hash : Int)
    (selected_profile_id : Option String) :
    (Option ProfileSummary × Option (List LabRow)) × ProfileCache :=
  match cacheLookup cache (df_hash, selected_profile_id) with
  | some v => (v, cacheTouch cache (df_hash, selected_profile_id))
  | none =>
    let v := profile_id_analysis_body sess selected_profile_id
    (v, cacheInsert cache (df_hash, selected_profile_id) v)

/-- A cache state is faithful when every stored value is an output of the
body (as every entry written by `profile_id_analysis` itself is). -/
def cacheFaithful (c : ProfileCache) : Prop :=
  ∀ e ∈ c.entries, ∃ sess sel, e.2 = profile_id_analysis_body sess sel

/-- One row of the Lot Summary table. -/
structure LotRow where
  lot_number : Cell
  total_runs : Nat
  total_invalid_indeterminate : Nat
  pct100 : Nat
deriving DecidableEq

/-- `lot_specific_analysis` (utils.py lines 196-232): per-lot counts in
first-appearance order of the lots, plus the Top-20 view obtained by a
descending `sort_values('Total Runs')` and `head(20)`. -/
def lot_specific_analysis (df0 : Option (List Record)) (selected_profile_id : Option String) :
    Option (List LotRow) × Option (List LotRow) :=
  match df0 with
  | none => (none, none)
  | some dfA =>
    if dfA.isEmpty then (none, none)
    else
      let df := profileFilter selected_profile_id dfA
      if df.isEmpty then (none, none)
      else
        let lot_data := (pdUnique (df.map (fun r => r.lot))).map (fun lot_number =>
          let lot_df := df.filter (fun r => pandasEq r.lot lot_number)
          let total_invalid := lot_df.countP (fun r => cellEqStr r.test_status "Invalid")
          let total_indeterminate := lot_df.countP (fun r => cellEqStr r.test_status "Indeterminate")
          ({ lot_number := lot_number
             total_runs := lot_df.length
             total_invalid_indeterminate := total_invalid + total_indeterminate
             pct100 := roundPct100 (total_invalid + total_indeterminate) lot_df.length } : LotRow))
        if !lot_data.isEmpty then
          (some lot_data,
           some ((sortValuesDescByNatKey (fun row => row.total_runs) lot_data).take 20))
        else (some lot_data, none)

/-- One row of a Trend table (monthly or weekly); `period` is the converted
`Month`/`Week` column used for the ascending sort. -/
structure TrendRow where
  period : Date
  total_runs : Nat
  total_invalid : Nat
  total_indeterminate : Nat
  total_invalid_indeterminate : Nat
deriving DecidableEq

/-- `df.groupby(key)` with the default `sort=True`: the distinct keys in
ascending order, each with its group of rows. -/
def groupbySorted (key : Record → String) (df : List Record) : List (String × List Record) :=
  (stableSortByStrKey (fun k => k) (pdUnique (df.map key))).map
    (fun k => (k, df.filter (fun r => key r == k)))

/-- `pd.to_datetime(month_key + '-01')` on a `groupby('Month')` key: default
inference succeeds for `"YYYY-MM-01"`-shaped strings (4-digit year, month
1-12); anything else raises. -/
def monthToDate (mk : String) : Option Date :=
  match splitDash mk with
  | [y, m] =>
    match parse4Digits y, parse1or2Digits m with
    | some yy, some mm => if 1 ≤ mm ∧ mm ≤ 12 then some ⟨yy, mm, 1⟩ else none
    | _, _ => none
  | _ => none

/-- The weekly conversion of `trend_analysis` (utils.py line 269):
`f"{x.split('-')[0]}-W{x.split('-')[1]}-1"` parsed with `%Y-W%U-%w`.  A key
with fewer than two parts raises `IndexError`, a part failing the `%Y`/`%U`
fields raises `ValueError`; both exceptions propagate here. -/
def weekToDateTrend (wk : String) : Option Date :=
  match splitDash wk with
  | y :: u :: _ => weekPartsToMonday y u
  | _ => none

/-- The aggregated counts of one trend group. -/
def mkTrendRow (d : Date) (g : List Record) : TrendRow :=
  let total_invalid := countStatus "Invalid" g
  let total_indeterminate := countStatus "Indeterminate" g
  ⟨d, g.length, total_invalid, total_indeterminate, total_invalid + total_indeterminate⟩

/-- One monthly trend row: convert the group's `Month` key (raising on
failure) and aggregate the group's counts. -/
def trendMonthRow (kg : String × List Record) : Except Unit TrendRow :=
  match monthToDate kg.1 with
  | some d => Except.ok (mkTrendRow d kg.2)
  | none => Except.error ()

/-- One weekly trend row: convert the group's `Week` key (raising on
failure) and aggregate the group's counts. -/
def trendWeekRow (kg : String × List Record) : Except Unit TrendRow :=
  match weekToDateTrend kg.1 with
  | some d => Except.ok (mkTrendRow d kg.2)
  | none => Except.error ()

/-- `trend_analysis` (utils.py lines 234-272): monthly and weekly groupby
tables, each with its bucket key converted to a date and sorted ascending by
it.  A key that fails conversion raises (`Except.error`). -/
def trend_analysis (df0 : Option (List Record)) (selected_profile_id selected_lab : Option String) :
    Except Unit (Option (List TrendRow) × Option (List TrendRow)) :=
  match df0 with
  | none => Except.ok (none, none)
  | some dfA =>
    if dfA.isEmpty then Except.ok (none, none)
    else
      let df := labFilter selected_lab (profileFilter selected_profile_id dfA)
      if df.isEmpty then Except.ok (none, none)
      else
        match exMap trendMonthRow (groupbySorted (fun r => r.month) df) with
        | Except.error e => Except.error e
        | Except.ok monthly =>
          match exMap trendWeekRow (groupbySorted (fun r => r.week) df) with
          | Except.error e => Except.error e
          | Except.ok weekly =>
            Except.ok
              (some (stableSortByNatKey (fun row => rataDie row.period) monthly),
               some (stableSortByNatKey (fun row => rataDie row.period) weekly))

/-- One row of the Weekly-by-Lab table. -/
structure WeeklyLabRow where
  week : String
  date_range : String
  lab_name : Cell
  total_runs : Nat
  total_invalid_indeterminate : Nat
  pct100 : Nat
deriving DecidableEq

/-- The `try`-block of `weekly_analysis` (utils.py lines 296-307): decompose
the week key at `'-'`, parse `"{year}-{week_num}-1"` with `%Y-%U-%w`, and
render the 7-day range; `IndexError` (fewer than two parts) and `ValueError`
(parse failure) are caught and degrade to `"Week <raw-key>"`. -/
def weekDateRange (w : String) : String :=
  match splitDash w with
  | y :: u :: _ =>
    match weekPartsToMonday y u with
    | some week_start => fmtDmy week_start ++ " to " ++ fmtDmy (addDays week_start 6)
    | none => "Week " ++ w
  | _ => "Week " ++ w

/-- The display label of utils.py line 319, computed *outside* the
`try`/`except`: `f"{week.split('-')[0]} Week {week.split('-')[1]}"`.  A week
key with fewer than two `'-'`-parts raises an uncaught `IndexError` here. -/
def weekDisplay (w : String) : Except Unit String :=
  match splitDash w with
  | y :: u :: _ => Except.ok (y ++ " Week " ++ u)
  | _ => Except.error ()

/-- The body of the inner lab loop of `weekly_analysis` (utils.py lines
309-328): the counts of this week's group for one lab, the degraded-or-not
date range computed in the `try`-block, and the display label whose
computation can raise. -/
def weeklyRowOf (week_df : List Record) (w : String) (lab_name : Cell) :
    Except Unit WeeklyLabRow :=
  let lab_week_df := week_df.filter (fun r => pandasEq r.lab_name lab_name)
  let total_invalid := countStatus "Invalid" lab_week_df
  let total_indeterminate := countStatus "Indeterminate" lab_week_df
  match weekDisplay w with
  | Except.ok week_display =>
    Except.ok
      ({ week := week_display
         date_range := weekDateRange w
         lab_name := lab_name
         total_runs := lab_week_df.length
         total_invalid_indeterminate := total_invalid + total_indeterminate
         pct100 := roundPct100 (total_invalid + total_indeterminate) lab_week_df.length } : WeeklyLabRow)
  | Except.error e => Except.error e

/-- One pass of the outer week loop: the rows of every lab present in the
week's group, labs in first-appearance order. -/
def weeklyWeekRows (df : List Record) (w : String) : Except Unit (List WeeklyLabRow) :=
  let week_df := df.filter (fun r => r.week == w)
  exMap (weeklyRowOf week_df w) (pdUnique (week_df.map (fun r => r.lab_name)))

/-- The nested week/lab loop of `weekly_analysis` (utils.py lines 293-328),
before the final sort: weeks in ascending raw-key order, labs within a week
in first-appearance order. -/
def weeklyBuild (df : List Record) : Except Unit (List WeeklyLabRow) :=
  match exMap (weeklyWeekRows df)
      (stableSortByStrKey (fun k => k) (pdUnique (df.map (fun r => r.week)))) with
  | Except.ok rowss => Except.ok rowss.flatten
  | Except.error e => Except.error e

/-- `weekly_analysis` (utils.py lines 274-332): build the week/lab rows and
sort the result by lab name (missing lab names last). -/
def weekly_analysis (df0 : Option (List Record)) (selected_profile_id selected_lab : Option String) :
    Except Unit (Option (List WeeklyLabRow)) :=
  match df0 with
  | none => Except.ok none
  | some dfA =>
    if dfA.isEmpty then Except.ok none
    else
      let df := labFilter selected_lab (profileFilter selected_profile_id dfA)
      if df.isEmpty then Except.ok none
      else
        match weeklyBuild df with
        | Except.error e => Except.error e
        | Except.ok rows =>
          if rows.isEmpty then Except.ok (some rows)
          else Except.ok (some (sortValuesByCellKey (fun row => row.lab_name) rows))

/-! ## Auxiliary definitions for the claim statements and witnesses -/

deriving instance DecidableEq for Except

/-- A sample Dataset record (profile `"P1"`, January 2024). -/
def mkSample (status lab lot wk : String) : Record :=
  ⟨⟨2024, 1, 1⟩, Cell.str "P1", Cell.str "Detected", Cell.str status, Cell.str lab,
   Cell.str "T1", Cell.str lot, "2024-01", wk⟩

/-- Sample Dataset: two `Invalid` runs at lab `A`, one `Valid` run at lab `B`. -/
def dsMain : List Record :=
  [mkSample "Invalid" "A" "L1" "2024-01", mkSample "Invalid" "A" "L1" "2024-01",
   mkSample "Valid" "B" "L2" "2024-01"]

/-- Sample Dataset differing from `dsMain` (one `Valid` run). -/
def dsAlt : List Record := [mkSample "Valid" "A" "L1" "2024-01"]

/-- The per-lab Profile Summary table the body computes on `dsMain` with no
profile filter (used by the C1 witness). -/
def dsMainLabs : List LabRow :=
  [⟨Cell.str "A", "T1", 2, 2, 2, 10000, 10000⟩, ⟨Cell.str "B", "T1", 1, 1, 0, 0, 0⟩]

/-- A Dataset whose only record has profile `"P2"`, so filtering it by
profile `"P1"` leaves nothing. -/
def dsP2only : List Record :=
  [⟨⟨2024, 1, 1⟩, Cell.str "P2", Cell.str "Detected", Cell.str "Valid", Cell.str "A",
    Cell.str "T1", Cell.str "L1", "2024-01", "2024-01"⟩]

/-- The cache after one call on `dsMain` with key `(0, some "P1")`: a warm
`lru_cache` state reachable by the program itself. -/
def warmCache : ProfileCache :=
  (profile_id_analysis ProfileCache.empty ⟨some dsMain⟩ 0 (some "P1")).2

/-- Sample Dataset with two lots of one run each (a `total_runs` tie),
lot `L1` appearing first. -/
def dsTie : List Record :=
  [mkSample "Valid" "A" "L1" "2024-01", mkSample "Valid" "B" "L2" "2024-01"]

/-- A record whose week key has no `'-'` at all. -/
def dsNoDash : List Record :=
  [⟨⟨2024, 1, 1⟩, Cell.str "P1", Cell.null, Cell.str "Valid", Cell.str "A",
    Cell.null, Cell.null, "2024-01", "2024"⟩]

/-- A record whose week key splits at `'-'` but fails the `%Y-%U` parse. -/
def dsDashBad : List Record :=
  [⟨⟨2024, 1, 1⟩, Cell.str "P1", Cell.null, Cell.str "Valid", Cell.str "A",
    Cell.null, Cell.null, "2024-01", "2024-xx"⟩]

/-- A ten-column raw input whose single row carries the ambiguous date string
`"03-04-2024 10:00:00"` (day 3 / month 4 under `%d-%m-%Y`, month 3 / day 4
under default inference). -/
def rawAmbiguous : RawTable :=
  ⟨10, [[Cell.dateStr 3 4 2024 true, Cell.str "P1", Cell.null, Cell.str "Detected",
         Cell.str "Valid", Cell.str "LabA", Cell.null, Cell.null, Cell.str "T1",
         Cell.str "L1"]]⟩

/-- A normalized raw record whose `test_time` field is the literal string
`"not-a-date"`. -/
def rawJunkRecord : RawRecord :=
  ⟨Cell.str "not-a-date", Cell.null, Cell.null, Cell.null, Cell.null, Cell.null, Cell.null⟩

/-- A narrow (five-column) raw input triggering the fallback selection. -/
def rawNarrow : RawTable :=
  ⟨5, [[Cell.dateStr 2024 1 2 false, Cell.str "P1", Cell.null, Cell.str "Detected",
        Cell.str "Valid"]]⟩

/-! ## General lemmas -/

/-- Sortedness of the stable-sort model for a total, transitive relation. -/
theorem pairwise_insertionSort {α : Type} (r : α → α → Prop) [DecidableRel r]
    (htot : ∀ a b, r a b ∨ r b a) (htr : ∀ a b c, r a b → r b c → r a c) (l : List α) :
    List.Pairwise r (List.insertionSort r l) :=
  @List.sorted_insertionSort α r _ ⟨htot⟩ ⟨fun a b c => htr a b c⟩ l

/-- Counting two mutually exclusive predicates never exceeds the length. -/
theorem countP_add_countP_le_length {α : Type} (p q : α → Bool)
    (h : ∀ x, p x = true → q x = false) (l : List α) :
    l.countP p + l.countP q ≤ l.length := by
  induction l with
  | nil => simp
  | cons x xs ih =>
    rw [List.countP_cons, List.countP_cons, List.length_cons]
    by_cases hp : p x = true
    · have hq := h x hp
      simp only [hp, hq, if_true, Bool.false_eq_true, if_false]
      omega
    · have hp2 : p x = false := by simpa using hp
      simp only [hp2, Bool.false_eq_true, if_false]
      by_cases hq : q x = true
      · simp only [hq, if_true]; omega
      · have hq2 : q x = false := by simpa using hq
        simp only [hq2, Bool.false_eq_true, if_false]; omega

/-- A status cell cannot be both `"Invalid"` and `"Indeterminate"`. -/
theorem invalid_indeterminate_exclusive (r : Record) :
    cellEqStr r.test_status "Invalid" = true →
    cellEqStr r.test_status "Indeterminate" = true → False := by
  cases h : r.test_status with
  | null => simp [cellEqStr]
  | str t =>
    simp only [cellEqStr, beq_iff_eq]
    intro h1 h2
    rw [h1] at h2
    exact absurd h2 (by decide)
  | dateStr a b c t => simp [cellEqStr]

/-- The two status counts of a group never exceed its size. -/
theorem statusCounts_le (l : List Record) :
    countStatus "Invalid" l + countStatus "Indeterminate" l ≤ l.length := by
  apply countP_add_countP_le_length
  intro x hx
  by_contra hq
  exact invalid_indeterminate_exclusive x hx (by simpa using hq)

/-- The percentage-in-hundredths is at most 10000 (i.e. 100%). -/
theorem roundPct100_le (n d : Nat) (h : n ≤ d) : roundPct100 n d ≤ 10000 := by
  unfold roundPct100
  by_cases hd : 0 < d
  · rw [if_pos hd]
    have h1 : 20000 * n ≤ 20000 * d := Nat.mul_le_mul_left _ h
    have h2 : 20000 * n + d < 10001 * (2 * d) := by omega
    have h3 := (Nat.div_lt_iff_lt_mul (by omega : 0 < 2 * d)).mpr (by omega : 20000 * n + d < 10001 * (2 * d))
    omega
  · rw [if_neg hd]; omega

/-- If every element maps to a success, the whole loop succeeds and preserves
the length. -/
theorem exMap_ok_of_forall {α β : Type} (f : α → Except Unit β) :
    ∀ l : List α, (∀ x ∈ l, ∃ y, f x = Except.ok y) →
      ∃ ys, exMap f l = Except.ok ys ∧ ys.length = l.length
  | [], _ => ⟨[], rfl, rfl⟩
  | x :: xs, h => by
    obtain ⟨y, hy⟩ := h x (List.mem_cons_self x xs)
    obtain ⟨ys, hys, hlen⟩ := exMap_ok_of_forall f xs (fun z hz => h z (List.mem_cons_of_mem x hz))
    refine ⟨y :: ys, ?_, by simp [hlen]⟩
    simp [exMap, hy, hys]

/-- Every element of a successful loop's output comes from some input. -/
theorem exMap_mem {α β : Type} (f : α → Except Unit β) :
    ∀ (l : List α) (ys : List β), exMap f l = Except.ok ys →
      ∀ y ∈ ys, ∃ x ∈ l, f x = Except.ok y
  | [], ys, h, y, hy => by
    simp only [exMap] at h
    cases h
    simp at hy
  | x :: xs, ys, h, y, hy => by
    simp only [exMap] at h
    cases hfx : f x with
    | error e => rw [hfx] at h; cases h
    | ok z =>
      rw [hfx] at h
      cases hrest : exMap f xs with
      | error e => rw [hrest] at h; cases h
      | ok zs =>
        rw [hrest] at h
        cases h
        rcases List.mem_cons.mp hy with h1 | h1
        · exact ⟨x, List.mem_cons_self x xs, by rw [hfx, h1]⟩
        · obtain ⟨w, hw, hfw⟩ := exMap_mem f xs zs hrest y h1
          exact ⟨w, List.mem_cons_of_mem x hw, hfw⟩

/-- `pdUniqueAux` only returns elements of its input. -/
theorem mem_of_mem_pdUniqueAux {α : Type} [DecidableEq α] :
    ∀ (l seen : List α) (x : α), x ∈ pdUniqueAux l seen → x ∈ l
  | [], _, x, h => by simp [pdUniqueAux] at h
  | y :: ys, seen, x, h => by
    simp only [pdUniqueAux] at h
    by_cases hy : y ∈ seen
    · rw [if_pos hy] at h
      exact List.mem_cons_of_mem y (mem_of_mem_pdUniqueAux ys seen x h)
    · rw [if_neg hy] at h
      rcases List.mem_cons.mp h with h1 | h1
      · exact h1 ▸ List.mem_cons_self y ys
      · exact List.mem_cons_of_mem y (mem_of_mem_pdUniqueAux ys (y :: seen) x h1)

/-- `unique()` only returns values of the column. -/
theorem mem_of_mem_pdUnique {α : Type} [DecidableEq α] {l : List α} {x : α}
    (h : x ∈ pdUnique l) : x ∈ l := mem_of_mem_pdUniqueAux l [] x h

/-- `unique()` of a nonempty column is nonempty. -/
theorem pdUnique_ne_nil {α : Type} [DecidableEq α] {l : List α} (h : l ≠ []) :
    pdUnique l ≠ [] := by
  cases l with
  | nil => exact absurd rfl h
  | cons x xs => simp [pdUnique, pdUniqueAux]

/-- Sorting by a string key preserves membership. -/
theorem mem_stableSortByStrKey {α : Type} (key : α → String) (l : List α) (x : α) :
    x ∈ stableSortByStrKey key l ↔ x ∈ l :=
  (List.perm_insertionSort _ l).mem_iff

/-- Sorting by a string key preserves the length. -/
theorem length_stableSortByStrKey {α : Type} (key : α → String) (l : List α) :
    (stableSortByStrKey key l).length = l.length :=
  (List.perm_insertionSort _ l).length_eq

/-- Sorting by a numeric key preserves the length. -/
theorem length_stableSortByNatKey {α : Type} (key : α → Nat) (l : List α) :
    (stableSortByNatKey key l).length = l.length :=
  (List.perm_insertionSort _ l).length_eq

/-- The profile filter only keeps records of the Dataset. -/
theorem mem_of_mem_profileFilter {p : Option String} {rows : List Record} {r : Record}
    (h : r ∈ profileFilter p rows) : r ∈ rows := by
  cases p with
  | none => exact h
  | some s =>
    simp only [profileFilter] at h
    by_cases hs : s ≠ "" ∧ s ≠ "All"
    · rw [if_pos hs] at h; exact (List.mem_filter.mp h).1
    · rw [if_neg hs] at h; exact h

/-- The lab filter only keeps records of the Dataset. -/
theorem mem_of_mem_labFilter {p : Option String} {rows : List Record} {r : Record}
    (h : r ∈ labFilter p rows) : r ∈ rows := by
  cases p with
  | none => exact h
  | some s =>
    simp only [labFilter] at h
    by_cases hs : s ≠ "" ∧ s ≠ "All Labs"
    · rw [if_pos hs] at h; exact (List.mem_filter.mp h).1
    · rw [if_neg hs] at h; exact h

/-- The lab-name sort only returns rows of its input. -/
theorem mem_of_mem_sortValuesByCellKey {α : Type} {key : α → Cell} {l : List α} {x : α}
    (h : x ∈ sortValuesByCellKey key l) : x ∈ l := by
  rcases List.mem_append.mp h with h1 | h1
  · exact (List.mem_filter.mp ((mem_stableSortByStrKey _ _ _).mp h1)).1
  · exact (List.mem_filter.mp h1).1

/-- Skipping unreadable files then parsing equals parsing the readable files. -/
theorem filterMap_option_map {α β : Type} (g : α → β) :
    ∀ l : List (Option α), l.filterMap (fun f => f.map g) = (l.filterMap id).map g
  | [] => rfl
  | none :: xs => by
    simp only [List.filterMap_cons, Option.map_none, id]
    exact filterMap_option_map g xs
  | some x :: xs => by
    simp [List.filterMap_cons, filterMap_option_map g xs]

/-! ## Claim theorems -/

/-- C2 counterexample: the claim says the Dataset Builder parses `test_time`
by the prioritized attempt order of `parse_date` (day-month-year first).  On
the ambiguous string `"03-04-2024 10:00:00"` the prioritized order yields
April 3 (`2024-04-03`), but the Dataset built by `load_and_process_csv`
stores March 4 (`2024-03-04`): the builder uses only the single permissive
parse and never calls `parse_date`. -/
theorem claim_C2_counterexample :
    (load_and_process_csv [some rawAmbiguous]).map (fun recs =>
      recs.map (fun r => r.test_date_time)) = some [⟨2024, 3, 4⟩] ∧
    parse_date (Cell.dateStr 3 4 2024 true) = some ⟨2024, 4, 3⟩ := by
  constructor
  · rfl
  · rfl

/-- C2 (amended): the Dataset Builder parses each row's `test_time` with the
single best-effort permissive parse (`pd.to_datetime(..., errors='coerce')`):
the stored timestamp is that parse's result, a row whose permissive parse
fails is dropped (its `test_time` is null), and in particular a row on which
every attempt of the prioritized `parse_date` chain fails is dropped.  The
prioritized chain itself is not what the builder runs (see the
counterexample). -/
theorem claim_C2 (r : RawRecord) :
    (∀ rec, buildRecord r = some rec → to_datetime r.test_date_time = some rec.test_date_time) ∧
    (to_datetime r.test_date_time = none → buildRecord r = none) ∧
    (parse_date r.test_date_time = none → buildRecord r = none) := by
  refine ⟨?_, ?_, ?_⟩
  · intro rec h
    unfold buildRecord at h
    cases hd : to_datetime r.test_date_time with
    | none => rw [hd] at h; cases h
    | some d =>
      rw [hd] at h
      cases h
      rfl
  · intro h
    unfold buildRecord
    rw [h]
  · intro h
    unfold parse_date at h
    cases h1 : tryDMY r.test_date_time with
    | some d => rw [h1] at h; cases h
    | none =>
      rw [h1] at h
      cases h2 : to_datetime r.test_date_time with
      | some d => rw [h2] at h; cases h
      | none =>
        unfold buildRecord
        rw [h2]

/-- C2 witness: on the literal string `"not-a-date"` every parse fails and
the row is dropped. -/
theorem claim_C2_witness :
    parse_date rawJunkRecord.test_date_time = none ∧
    to_datetime rawJunkRecord.test_date_time = none ∧
    buildRecord rawJunkRecord = none := by
  refine ⟨by decide, by decide, ?_⟩
  exact (claim_C2 rawJunkRecord).2.2 (by decide)

/-- C3 counterexample: `profile_id_analysis` is invoked twice with identical
explicit arguments (`df_hash = 0`, no profile filter, a cold cache) in two
different ambient session states and returns different results — it reads
the Dataset from `st.session_state.data`, not from its arguments. -/
theorem claim_C3_counterexample :
    (profile_id_analysis ProfileCache.empty ⟨some dsMain⟩ 0 none).1 ≠
    (profile_id_analysis ProfileCache.empty ⟨some dsAlt⟩ 0 none).1 := by
  decide

/-- C3 (amended): `lot_specific_analysis`, `trend_analysis` and
`weekly_analysis` take the Dataset and the filter values as explicit inputs
(their argument lists); `profile_id_analysis` instead receives only a
dataset hash and reads the Dataset from the ambient session state, memoised
by `lru_cache` on the `(df_hash, profile)` key: on a cache miss the result
is the analysis of the *current* session Dataset — independent of the hash
value and determined by the session Dataset plus the profile filter — while
a cache hit returns the previously cached value unchanged, whatever the
current session state.  Identical explicit arguments therefore do not
determine the result. -/
theorem claim_C3 (cache : ProfileCache) (s1 s2 : SessionState) (h1 h2 : Int)
    (sel : Option String) :
    (cacheLookup cache (h1, sel) = none → cacheLookup cache (h2, sel) = none →
      (profile_id_analysis cache s1 h1 sel).1 = (profile_id_analysis cache s1 h2 sel).1) ∧
    (cacheLookup cache (h1, sel) = none → s1.data = s2.data →
      (profile_id_analysis cache s1 h1 sel).1 = (profile_id_analysis cache s2 h1 sel).1) ∧
    (∀ v, cacheLookup cache (h1, sel) = some v →
      (profile_id_analysis cache s1 h1 sel).1 = v ∧
      (profile_id_analysis cache s2 h1 sel).1 = v) := by
  refine ⟨?_, ?_, ?_⟩
  · intro hm1 hm2
    unfold profile_id_analysis
    rw [hm1, hm2]
  · intro hm1 hdata
    unfold profile_id_analysis
    rw [hm1]
    obtain ⟨d1⟩ := s1
    obtain ⟨d2⟩ := s2
    cases hdata
    rfl
  · intro v hv
    unfold profile_id_analysis
    rw [hv]
    exact ⟨rfl, rfl⟩

/-- C3 witness: a cold cache with equal session data gives equal results
under different hash arguments. -/
theorem claim_C3_witness :
    cacheLookup ProfileCache.empty ((0 : Int), (none : Option String)) = none ∧
    (profile_id_analysis ProfileCache.empty ⟨some dsMain⟩ 0 none).1 =
      (profile_id_analysis ProfileCache.empty ⟨some dsMain⟩ 5 none).1 := by
  have h := claim_C3 ProfileCache.empty ⟨some dsMain⟩ ⟨some dsMain⟩ 0 5 none
  exact ⟨by decide, h.1 (by decide) (by decide)⟩

/-- C4 counterexample: the claim's unconditional empty-signal guarantee
fails for the `lru_cache`-decorated `profile_id_analysis`.  A first call on
`dsMain` warms the cache for the key `(0, "P1")`; a second call with the
same explicit arguments after the session Dataset has been replaced by
`dsP2only` — which has no profile-`"P1"` rows, so the filtered Dataset is
empty — returns the stale populated table instead of the empty-signal. -/
theorem claim_C4_counterexample :
    warmCache = (profile_id_analysis ProfileCache.empty ⟨some dsMain⟩ 0 (some "P1")).2 ∧
    profileFilter (some "P1") dsP2only = [] ∧
    (profile_id_analysis warmCache ⟨some dsP2only⟩ 0 (some "P1")).1 ≠ (none, none) := by
  decide

/-- C4 (amended): `lot_specific_analysis`, `trend_analysis` and
`weekly_analysis` return their empty-signal whenever the Dataset filtered by
their own filters is empty — in particular for a profile id absent from the
Dataset — rather than raising an error or returning a populated table.
`profile_id_analysis` does so whenever its `(df_hash, profile)` key is not
cached; a warm `lru_cache` entry for that key is returned as-is, so it can
be a stale populated table even though the current filtered Dataset is
empty (see the counterexample). -/
theorem claim_C4 (cache : ProfileCache) (sess : SessionState) (dfh : Int)
    (rows : List Record) (p l : Option String) :
    (cacheLookup cache (dfh, p) = none → sess.data = some rows →
      profileFilter p rows = [] →
      (profile_id_analysis cache sess dfh p).1 = (none, none)) ∧
    (profileFilter p rows = [] → lot_specific_analysis (some rows) p = (none, none)) ∧
    (labFilter l (profileFilter p rows) = [] →
      trend_analysis (some rows) p l = Except.ok (none, none)) ∧
    (labFilter l (profileFilter p rows) = [] →
      weekly_analysis (some rows) p l = Except.ok none) := by
  refine ⟨?_, ?_, ?_, ?_⟩
  · intro hmiss hdata hfil
    unfold profile_id_analysis
    rw [hmiss]
    show profile_id_analysis_body sess p = (none, none)
    by_cases h0 : rows.isEmpty
    · simp [profile_id_analysis_body, hdata, h0]
    · simp [profile_id_analysis_body, hdata, h0, hfil]
  · intro hfil
    by_cases h0 : rows.isEmpty
    · simp [lot_specific_analysis, h0]
    · simp [lot_specific_analysis, h0, hfil]
  · intro hfil
    by_cases h0 : rows.isEmpty
    · simp [trend_analysis, h0]
    · simp [trend_analysis, h0, hfil]
  · intro hfil
    by_cases h0 : rows.isEmpty
    · simp [weekly_analysis, h0]
    · simp [weekly_analysis, h0, hfil]

/-- C4 witness: filtering `dsMain` by the absent profile id `"P2"` (with a
cold cache for the profile view) yields the empty-signal from all four
aggregation functions. -/
theorem claim_C4_witness :
    cacheLookup ProfileCache.empty ((0 : Int), some "P2") = none ∧
    profileFilter (some "P2") dsMain = [] ∧
    labFilter none (profileFilter (some "P2") dsMain) = [] ∧
    (profile_id_analysis ProfileCache.empty ⟨some dsMain⟩ 0 (some "P2")).1 = (none, none) ∧
    lot_specific_analysis (some dsMain) (some "P2") = (none, none) ∧
    trend_analysis (some dsMain) (some "P2") none = Except.ok (none, none) ∧
    weekly_analysis (some dsMain) (some "P2") none = Except.ok none := by
  have h := claim_C4 ProfileCache.empty ⟨some dsMain⟩ 0 dsMain (some "P2") none
  exact ⟨by decide, by decide, by decide, h.1 (by decide) rfl (by decide),
         h.2.1 (by decide), h.2.2.1 (by decide), h.2.2.2 (by decide)⟩

/-- C5: the Dataset Builder's only row-level filtering is dropping the rows
whose permissive `test_time` parse fails (the Dataset is exactly the
concatenated parser outputs filtered by `buildRecord`); an empty input file
list (and a Dataset-less session) yields the builder's empty-signal, on
which every aggregation function returns its empty-signal instead of an
error — for the Profile Summary, on any call whose `(df_hash, profile)` key
is not already memoised (a warm `lru_cache` entry would be returned as-is,
see C4's counterexample). -/
theorem claim_C5 (cache : ProfileCache) (files : List (Option RawTable)) (dfh : Int)
    (p l : Option String) :
    load_and_process_csv [] = none ∧
    (cacheLookup cache (dfh, p) = none →
      (profile_id_analysis cache ⟨none⟩ dfh p).1 = (none, none)) ∧
    lot_specific_analysis none p = (none, none) ∧
    trend_analysis none p l = Except.ok (none, none) ∧
    weekly_analysis none p l = Except.ok none ∧
    (∀ raw : RawRecord, buildRecord raw = none ↔ to_datetime raw.test_date_time = none) ∧
    (¬ files.isEmpty = true → ¬ (files.filterMap id).isEmpty = true →
      load_and_process_csv files =
        some ((((files.filterMap id).map processFile).flatten).filterMap buildRecord)) := by
  refine ⟨rfl, ?_, rfl, rfl, rfl, ?_, ?_⟩
  · intro hmiss
    unfold profile_id_analysis
    rw [hmiss]
    rfl
  · intro raw
    constructor
    · intro h
      unfold buildRecord at h
      cases hd : to_datetime raw.test_date_time with
      | none => rfl
      | some d => rw [hd] at h; cases h
    · intro h
      unfold buildRecord
      rw [h]
  · intro h1 h2
    have h3 : ¬ ((files.filterMap id).map processFile).isEmpty = true := by
      intro hc
      rw [List.isEmpty_iff] at hc
      exact h2 (by rw [List.isEmpty_iff]; exact List.map_eq_nil_iff.mp hc)
    simp only [load_and_process_csv, if_neg h1, filterMap_option_map, if_neg h3]

/-- C5 witness: one unreadable file plus one readable file. -/
theorem claim_C5_witness :
    ¬ ([none, some rawAmbiguous] : List (Option RawTable)).isEmpty = true ∧
    load_and_process_csv [none, some rawAmbiguous] =
      some ((((([none, some rawAmbiguous] : List (Option RawTable)).filterMap id).map
        processFile).flatten).filterMap buildRecord) := by
  have h := claim_C5 ProfileCache.empty [none, some rawAmbiguous] 0 none none
  exact ⟨by decide, h.2.2.2.2.2.2 (by decide) (by decide)⟩

/-- C8: when the direct positional column selection fails (some required
position is outside the input's width, i.e. the width is at most 9), the
parser falls back to building the table field-by-field from positions
0, 1, 3, 4, 5, 8, 9, substituting a null placeholder for every field whose
source position is beyond the width; the fallback is total (never throws)
and yields one — possibly partially null — record per input row, so no file
is dropped. -/
theorem claim_C8 (t : RawTable) (h : t.ncols ≤ 9) :
    directSelect t = none ∧
    processFile t = t.rows.map (fun row =>
      ⟨if 0 < t.ncols then getCell row 0 else Cell.null,
       if 1 < t.ncols then getCell row 1 else Cell.null,
       if 3 < t.ncols then getCell row 3 else Cell.null,
       if 4 < t.ncols then getCell row 4 else Cell.null,
       if 5 < t.ncols then getCell row 5 else Cell.null,
       if 8 < t.ncols then getCell row 8 else Cell.null,
       if 9 < t.ncols then getCell row 9 else Cell.null⟩) ∧
    (processFile t).length = t.rows.length := by
  have hd : directSelect t = none := by
    unfold directSelect
    rw [if_neg (by omega)]
  have hp : processFile t = fallbackSelect t := by
    unfold processFile
    rw [hd]
  refine ⟨hd, ?_, ?_⟩
  · rw [hp]; rfl
  · rw [hp]
    unfold fallbackSelect
    exact List.length_map _ _

/-- C8 witness: a five-column input is processed by the fallback with null
placeholders at positions 5, 8, 9. -/
theorem claim_C8_witness :
    rawNarrow.ncols ≤ 9 ∧
    directSelect rawNarrow = none ∧
    (processFile rawNarrow).length = rawNarrow.rows.length := by
  have h := claim_C8 rawNarrow (by decide)
  exact ⟨by decide, h.1, h.2.2⟩

/-- Every row produced by the week/lab loop carries the guarded percentage of
its own recorded counts, bounded by 100%. -/
theorem weeklyBuild_pct (df : List Record) (rows : List WeeklyLabRow)
    (hb : weeklyBuild df = Except.ok rows) :
    ∀ row ∈ rows,
      row.pct100 = roundPct100 row.total_invalid_indeterminate row.total_runs ∧
      row.pct100 ≤ 10000 := by
  intro row hrow
  unfold weeklyBuild at hb
  cases hex : exMap (weeklyWeekRows df)
      (stableSortByStrKey (fun k => k) (pdUnique (df.map (fun r => r.week)))) with
  | error e => rw [hex] at hb; cases hb
  | ok rowss =>
    rw [hex] at hb
    cases hb
    obtain ⟨sub, hsub, hrowsub⟩ := List.mem_flatten.mp hrow
    obtain ⟨w, hw, hfw⟩ := exMap_mem _ _ _ hex sub hsub
    unfold weeklyWeekRows at hfw
    obtain ⟨lab, hlab, hflab⟩ := exMap_mem _ _ _ hfw row hrowsub
    unfold weeklyRowOf at hflab
    cases hdisp : weekDisplay w with
    | error e => rw [hdisp] at hflab; cases hflab
    | ok disp =>
      rw [hdisp] at hflab
      cases hflab
      exact ⟨rfl, roundPct100_le _ _ (statusCounts_le _)⟩

/-- The row-internal percentage laws of every Profile Summary the body can
produce. -/
theorem profile_body_pct (sess : SessionState) (p : Option String) :
    ∀ s labs, profile_id_analysis_body sess p = (some s, some labs) →
      (s.overall_pct100 = roundPct100 (s.total_invalids + s.total_indeterminates) s.total_runs ∧
        s.overall_pct100 ≤ 10000) ∧
      (∀ row ∈ labs,
        row.pct100 = roundPct100 row.total_invalid_indeterminate row.total_tests ∧
        row.pct100 ≤ 10000 ∧ row.last_10_pct100 ≤ 10000) := by
  intro s labs h
  obtain ⟨data⟩ := sess
  cases data with
  | none => simp [profile_id_analysis_body] at h
  | some df1 =>
    by_cases h0 : df1.isEmpty
    · simp [profile_id_analysis_body, h0] at h
    · by_cases h1 : (profileFilter p df1).isEmpty
      · simp [profile_id_analysis_body, h0, h1] at h
      · simp only [profile_id_analysis_body, h0, h1, if_false, Bool.false_eq_true,
          Prod.mk.injEq, Option.some.injEq] at h
        obtain ⟨hs, hl⟩ := h
        subst hs
        subst hl
        constructor
        · exact ⟨rfl, roundPct100_le _ _ (statusCounts_le _)⟩
        · intro row hrow
          obtain ⟨L, hL, hrowEq⟩ := List.mem_map.mp hrow
          subst hrowEq
          exact ⟨rfl, roundPct100_le _ _ (statusCounts_le _),
                 roundPct100_le _ _ (statusCounts_le _)⟩

/-- A cache hit's value is one of the stored entries. -/
theorem cacheLookup_mem (c : ProfileCache) (k : Int × Option String)
    (v : Option ProfileSummary × Option (List LabRow)) (h : cacheLookup c k = some v) :
    ∃ e ∈ c.entries, e.2 = v := by
  unfold cacheLookup at h
  cases hf : c.entries.find? (fun e => e.1 == k) with
  | none => rw [hf] at h; cases h
  | some e =>
    rw [hf] at h
    injection h with h2
    exact ⟨e, List.mem_of_find?_eq_some hf, h2⟩

/-- The empty cache is faithful. -/
theorem cacheFaithful_empty : cacheFaithful ProfileCache.empty :=
  fun e he => absurd he (List.not_mem_nil e)

/-- Each call preserves cache faithfulness, so every cache state the program
reaches from a fresh process is faithful. -/
theorem cacheFaithful_step (c : ProfileCache) (sess : SessionState) (dfh : Int)
    (sel : Option String) (hc : cacheFaithful c) :
    cacheFaithful (profile_id_analysis c sess dfh sel).2 := by
  unfold profile_id_analysis
  cases hl : cacheLookup c (dfh, sel) with
  | some v =>
    show cacheFaithful (cacheTouch c (dfh, sel))
    unfold cacheTouch
    cases hf : c.entries.find? (fun e => e.1 == (dfh, sel)) with
    | none => exact hc
    | some e0 =>
      intro e he
      rcases List.mem_cons.mp he with h1 | h1
      · exact h1 ▸ hc e0 (List.mem_of_find?_eq_some hf)
      · exact hc e (List.mem_filter.mp h1).1
  | none =>
    show cacheFaithful (cacheInsert c (dfh, sel) (profile_id_analysis_body sess sel))
    intro e he
    have h2 := List.mem_of_mem_take he
    rcases List.mem_cons.mp h2 with h1 | h1
    · exact ⟨sess, sel, by rw [h1]⟩
    · exact hc e h1

/-- C1: in every aggregation view that reports an invalid/indeterminate
percentage (the Profile Summary's overall metrics, its per-lab rows, the Lot
Summary rows, and the Weekly-by-Lab rows), the percentage equals the guarded
formula `round((invalid + indeterminate) / runs * 100, 2)` applied to that
group's recorded counts — with `0` when the group's row count is `0` — and,
in the hundredths representation, always lies in `[0, 100]`
(`pct100 ≤ 10000`; `0 ≤` holds by the `Nat` representation).  For the
Profile Summary the laws hold of the body's output and hence also of every
value the `lru_cache`-wrapped function returns from a faithful cache (whose
entries are prior body outputs, as all program-written entries are).  No
division by zero can occur: `roundPct100` is total and returns `0` for a
zero denominator. -/
theorem claim_C1 (cache : ProfileCache) (sess : SessionState) (dfh : Int)
    (df0 : Option (List Record)) (p l : Option String) :
    (∀ s labs, profile_id_analysis_body sess p = (some s, some labs) →
      (s.overall_pct100 = roundPct100 (s.total_invalids + s.total_indeterminates) s.total_runs ∧
        s.overall_pct100 ≤ 10000) ∧
      (∀ row ∈ labs,
        row.pct100 = roundPct100 row.total_invalid_indeterminate row.total_tests ∧
        row.pct100 ≤ 10000 ∧ row.last_10_pct100 ≤ 10000)) ∧
    (cacheFaithful cache → ∀ s labs c2,
      profile_id_analysis cache sess dfh p = ((some s, some labs), c2) →
      (s.overall_pct100 = roundPct100 (s.total_invalids + s.total_indeterminates) s.total_runs ∧
        s.overall_pct100 ≤ 10000) ∧
      (∀ row ∈ labs,
        row.pct100 = roundPct100 row.total_invalid_indeterminate row.total_tests ∧
        row.pct100 ≤ 10000 ∧ row.last_10_pct100 ≤ 10000)) ∧
    (∀ lots top, lot_specific_analysis df0 p = (some lots, top) →
      ∀ row ∈ lots,
        row.pct100 = roundPct100 row.total_invalid_indeterminate row.total_runs ∧
        row.pct100 ≤ 10000) ∧
    (∀ res, weekly_analysis df0 p l = Except.ok (some res) →
      ∀ row ∈ res,
        row.pct100 = roundPct100 row.total_invalid_indeterminate row.total_runs ∧
        row.pct100 ≤ 10000) ∧
    (∀ n, roundPct100 n 0 = 0) := by
  refine ⟨profile_body_pct sess p, ?_, ?_, ?_, fun n => rfl⟩
  · intro hfc s labs c2 h
    unfold profile_id_analysis at h
    cases hl : cacheLookup cache (dfh, p) with
    | none =>
      rw [hl] at h
      have h1 := congrArg Prod.fst h
      exact profile_body_pct sess p s labs h1
    | some v =>
      rw [hl] at h
      have h1 := congrArg Prod.fst h
      obtain ⟨e, he, hev⟩ := cacheLookup_mem cache (dfh, p) v hl
      obtain ⟨sess0, sel0, hbody⟩ := hfc e he
      exact profile_body_pct sess0 sel0 s labs ((hbody.symm.trans hev).trans h1)
  · intro lots top h
    cases df0 with
    | none => simp [lot_specific_analysis] at h
    | some dfA =>
      by_cases h0 : dfA.isEmpty
      · simp [lot_specific_analysis, h0] at h
      · by_cases h1 : (profileFilter p dfA).isEmpty
        · simp [lot_specific_analysis, h0, h1] at h
        · simp only [lot_specific_analysis, h0, h1, if_false, Bool.false_eq_true] at h
          have hfst := congrArg Prod.fst h
          split_ifs at hfst
          all_goals
            simp only [Option.some.injEq] at hfst
            subst hfst
            intro row hrow
            obtain ⟨L, hL, hrowEq⟩ := List.mem_map.mp hrow
            subst hrowEq
            refine ⟨rfl, ?_⟩
            have hle := statusCounts_le ((profileFilter p dfA).filter (fun r => pandasEq r.lot L))
            simp only [countStatus] at hle
            exact roundPct100_le _ _ hle
  · intro res h
    cases df0 with
    | none => simp [weekly_analysis] at h
    | some dfA =>
      by_cases h0 : dfA.isEmpty
      · simp [weekly_analysis, h0] at h
      · by_cases h1 : (labFilter l (profileFilter p dfA)).isEmpty
        · simp [weekly_analysis, h0, h1] at h
        · simp only [weekly_analysis, h0, h1, if_false, Bool.false_eq_true] at h
          cases hb : weeklyBuild (labFilter l (profileFilter p dfA)) with
          | error e => rw [hb] at h; cases h
          | ok rows =>
            rw [hb] at h
            by_cases h2 : rows.isEmpty
            · simp only [h2, if_true, Except.ok.injEq, Option.some.injEq] at h
              subst h
              exact weeklyBuild_pct _ _ hb
            · simp only [h2, Bool.false_eq_true, if_false, Except.ok.injEq,
                Option.some.injEq] at h
              subst h
              intro row hrow
              exact weeklyBuild_pct _ _ hb row (mem_of_mem_sortValuesByCellKey hrow)

/-- C1 witness: the sample Dataset of three runs, through the body and
through the wrapped function with a cold (faithful) cache. -/
theorem claim_C1_witness :
    profile_id_analysis_body ⟨some dsMain⟩ none =
      (some ⟨3, 2, 0, 6667⟩, some dsMainLabs) ∧
    profile_id_analysis ProfileCache.empty ⟨some dsMain⟩ 0 none =
      ((some ⟨3, 2, 0, 6667⟩, some dsMainLabs),
       ⟨[(((0 : Int), (none : Option String)), (some ⟨3, 2, 0, 6667⟩, some dsMainLabs))]⟩) ∧
    (6667 = roundPct100 (2 + 0) 3 ∧ 6667 ≤ 10000) := by
  have h := claim_C1 ProfileCache.empty ⟨some dsMain⟩ 0 (some dsMain) none none
  refine ⟨by decide, by decide, ?_⟩
  exact (h.2.1 cacheFaithful_empty ⟨3, 2, 0, 6667⟩ dsMainLabs
    ⟨[(((0 : Int), (none : Option String)), (some ⟨3, 2, 0, 6667⟩, some dsMainLabs))]⟩
    (by decide)).1

/-- The Top-20 construction: `min 20` rows and descending order.  These
facts need only that the sort is a sorted permutation, so they hold under
any `sort_values` kind; no tie-order property of the model is used. -/
theorem take20_desc_spec (tbl : List LotRow) :
    ((sortValuesDescByNatKey (fun row => row.total_runs) tbl).take 20).length =
      min 20 tbl.length ∧
    List.Pairwise (fun a b : LotRow => b.total_runs ≤ a.total_runs)
      ((sortValuesDescByNatKey (fun row => row.total_runs) tbl).take 20) := by
  constructor
  · rw [List.length_take, sortValuesDescByNatKey, List.length_reverse,
      length_stableSortByNatKey]
  · have hsorted := pairwise_insertionSort
      (r := fun a b : LotRow => a.total_runs ≤ b.total_runs)
      (fun a b => Nat.le_total _ _) (fun a b c => Nat.le_trans) tbl
    have hrev : List.Pairwise (fun a b : LotRow => b.total_runs ≤ a.total_runs)
        (sortValuesDescByNatKey (fun row => row.total_runs) tbl) :=
      List.pairwise_reverse.mpr hsorted
    exact hrev.sublist (List.take_sublist _ _)

/-- C6 counterexample: in `dsTie` the lots appear in order `L1`, `L2` and
tie at `total_runs = 1`, yet the Top-20 view lists `L2` before `L1`: pandas'
descending `sort_values` reverses its ascending `argsort` permutation, which
for this two-element tie is deterministic (numpy's sort is insertion sort,
hence stable, below its small-array threshold), so the lots come out in
reversed first-appearance order — contradicting the claimed
first-appearance tie-break. -/
theorem claim_C6_counterexample :
    (lot_specific_analysis (some dsTie) none).2 =
      some [⟨Cell.str "L2", 1, 0, 0⟩, ⟨Cell.str "L1", 1, 0, 0⟩] ∧
    dsTie.map (fun r => r.lot) = [Cell.str "L1", Cell.str "L2"] := by
  decide

/-- C6 (amended): the Top-20 view contains exactly `min 20 (number of
distinct lots)` rows, ordered by `total_runs` descending, and is the
empty-signal when the Lot Summary itself is empty.  The order of ties among
equal `total_runs` is implementation-defined (pandas' default quicksort) and
is *not* the claimed first-appearance order: at the counterexample — a
two-element tie, where numpy's sort is deterministic — pandas returns the
lots in reversed first-appearance order. -/
theorem claim_C6 (df0 : Option (List Record)) (p : Option String) (table top : List LotRow) :
    (lot_specific_analysis df0 p = (some table, some top) →
      top.length = min 20 table.length ∧
      List.Pairwise (fun a b : LotRow => b.total_runs ≤ a.total_runs) top) ∧
    ((lot_specific_analysis df0 p).1 = some table → table = [] →
      (lot_specific_analysis df0 p).2 = none) := by
  constructor
  · intro h
    cases df0 with
    | none => simp [lot_specific_analysis] at h
    | some dfA =>
      by_cases h0 : dfA.isEmpty
      · simp [lot_specific_analysis, h0] at h
      · by_cases h1 : (profileFilter p dfA).isEmpty
        · simp [lot_specific_analysis, h0, h1] at h
        · simp only [lot_specific_analysis, h0, h1, if_false, Bool.false_eq_true] at h
          split_ifs at h with h2
          · simp only [Prod.mk.injEq, Option.some.injEq] at h
            obtain ⟨ht, htop⟩ := h
            subst ht
            subst htop
            exact take20_desc_spec _
          · simp at h
  · intro h1 h2
    cases df0 with
    | none => simp [lot_specific_analysis] at h1
    | some dfA =>
      by_cases h0 : dfA.isEmpty
      · simp [lot_specific_analysis, h0] at h1
      · by_cases hp : (profileFilter p dfA).isEmpty
        · simp [lot_specific_analysis, h0, hp] at h1
        · simp only [lot_specific_analysis, h0, hp, if_false, Bool.false_eq_true] at h1 ⊢
          split_ifs at h1 with h3
          · simp only [Prod.fst, Option.some.injEq] at h1
            subst h1
            rw [h2] at h3
            simp at h3
          · simp only [h3, Bool.false_eq_true, if_false]

/-- C6 witness: at `dsTie` the Top-20 view has `min 20 2 = 2` rows. -/
theorem claim_C6_witness :
    lot_specific_analysis (some dsTie) none =
      (some [⟨Cell.str "L1", 1, 0, 0⟩, ⟨Cell.str "L2", 1, 0, 0⟩],
       some [⟨Cell.str "L2", 1, 0, 0⟩, ⟨Cell.str "L1", 1, 0, 0⟩]) ∧
    ([⟨Cell.str "L2", 1, 0, 0⟩, ⟨Cell.str "L1", 1, 0, 0⟩] : List LotRow).length =
      min 20 ([⟨Cell.str "L1", 1, 0, 0⟩, ⟨Cell.str "L2", 1, 0, 0⟩] : List LotRow).length := by
  have h := (claim_C6 (some dsTie) none
    [⟨Cell.str "L1", 1, 0, 0⟩, ⟨Cell.str "L2", 1, 0, 0⟩]
    [⟨Cell.str "L2", 1, 0, 0⟩, ⟨Cell.str "L1", 1, 0, 0⟩]).1 (by decide)
  exact ⟨by decide, h.1⟩

/-- Every group key of `groupby` is the key of some record of the frame. -/
theorem groupbySorted_key_mem (key : Record → String) (df : List Record)
    (kg : String × List Record) (h : kg ∈ groupbySorted key df) :
    ∃ r ∈ df, key r = kg.1 := by
  unfold groupbySorted at h
  obtain ⟨k, hk, hkg⟩ := List.mem_map.mp h
  subst hkg
  have h2 := mem_of_mem_pdUnique ((mem_stableSortByStrKey _ _ _).mp hk)
  obtain ⟨r, hr, hrk⟩ := List.mem_map.mp h2
  exact ⟨r, hr, hrk⟩

/-- `groupby` of a nonempty frame has at least one group. -/
theorem groupbySorted_ne_nil (key : Record → String) (df : List Record) (h : df ≠ []) :
    groupbySorted key df ≠ [] := by
  unfold groupbySorted
  intro hc
  rw [List.map_eq_nil_iff] at hc
  have h1 : (pdUnique (df.map key)).length = 0 := by
    rw [← length_stableSortByStrKey (fun k => k), hc]
    rfl
  have h2 := pdUnique_ne_nil (l := df.map key) (by simpa using h)
  rw [List.length_eq_zero] at h1
  exact h2 h1

/-- C9: over a Dataset whose month and week keys all convert (as every
builder-produced Dataset's do), the Trend Analysis returns its monthly and
weekly tables together: both are the empty-signal when the filtered Dataset
is empty, and otherwise both are populated (nonempty) — never one populated
and one empty. -/
theorem claim_C9 (rows : List Record) (p l : Option String)
    (hm : ∀ r ∈ rows, (monthToDate r.month).isSome = true)
    (hw : ∀ r ∈ rows, (weekToDateTrend r.week).isSome = true) :
    trend_analysis (some rows) p l = Except.ok (none, none) ∨
    ∃ m w, trend_analysis (some rows) p l = Except.ok (some m, some w) ∧ m ≠ [] ∧ w ≠ [] := by
  by_cases h0 : rows.isEmpty
  · left; simp [trend_analysis, h0]
  · by_cases h1 : (labFilter l (profileFilter p rows)).isEmpty
    · left; simp [trend_analysis, h0, h1]
    · right
      have hdfne : labFilter l (profileFilter p rows) ≠ [] := by
        intro hc
        exact h1 (by rw [hc]; rfl)
      have hmok : ∀ kg ∈ groupbySorted (fun r => r.month) (labFilter l (profileFilter p rows)),
          ∃ y, trendMonthRow kg = Except.ok y := by
        intro kg hkg
        obtain ⟨r, hr, hrk⟩ := groupbySorted_key_mem _ _ _ hkg
        have hr2 : r ∈ rows := mem_of_mem_profileFilter (mem_of_mem_labFilter hr)
        have hsome := hm r hr2
        rw [hrk] at hsome
        unfold trendMonthRow
        cases hmd : monthToDate kg.1 with
        | none => rw [hmd] at hsome; simp at hsome
        | some d => exact ⟨mkTrendRow d kg.2, rfl⟩
      have hwok : ∀ kg ∈ groupbySorted (fun r => r.week) (labFilter l (profileFilter p rows)),
          ∃ y, trendWeekRow kg = Except.ok y := by
        intro kg hkg
        obtain ⟨r, hr, hrk⟩ := groupbySorted_key_mem _ _ _ hkg
        have hr2 : r ∈ rows := mem_of_mem_profileFilter (mem_of_mem_labFilter hr)
        have hsome := hw r hr2
        rw [hrk] at hsome
        unfold trendWeekRow
        cases hmd : weekToDateTrend kg.1 with
        | none => rw [hmd] at hsome; simp at hsome
        | some d => exact ⟨mkTrendRow d kg.2, rfl⟩
      obtain ⟨monthly, hmonthly, hmlen⟩ := exMap_ok_of_forall _ _ hmok
      obtain ⟨weekly, hweekly, hwlen⟩ := exMap_ok_of_forall _ _ hwok
      refine ⟨stableSortByNatKey (fun row => rataDie row.period) monthly,
              stableSortByNatKey (fun row => rataDie row.period) weekly, ?_, ?_, ?_⟩
      · simp only [trend_analysis, h0, h1, Bool.false_eq_true, if_false, hmonthly, hweekly]
      · intro hc
        have h3 := congrArg List.length hc
        rw [length_stableSortByNatKey, hmlen] at h3
        exact groupbySorted_ne_nil _ _ hdfne (List.length_eq_zero.mp h3)
      · intro hc
        have h3 := congrArg List.length hc
        rw [length_stableSortByNatKey, hwlen] at h3
        exact groupbySorted_ne_nil _ _ hdfne (List.length_eq_zero.mp h3)

/-- C9 witness: the sample Dataset's keys all convert, and the trend call
returns both tables populated. -/
theorem claim_C9_witness :
    (∀ r ∈ dsMain, (monthToDate r.month).isSome = true) ∧
    (∀ r ∈ dsMain, (weekToDateTrend r.week).isSome = true) ∧
    (trend_analysis (some dsMain) none none = Except.ok (none, none) ∨
     ∃ m w, trend_analysis (some dsMain) none none = Except.ok (some m, some w) ∧
       m ≠ [] ∧ w ≠ []) :=
  ⟨by decide, by decide, claim_C9 dsMain none none (by decide) (by decide)⟩

/-- C10 counterexample: the claim says a week key that cannot be decomposed
into a year and week number is handled locally and never propagates as an
exception.  For the undashed week key `"2024"` the date-range `try`-block
does catch its `IndexError`, but the display label of line 319 is computed
outside the `try` and raises an uncaught `IndexError`: `weekly_analysis`
propagates an exception to the caller. -/
theorem claim_C10_counterexample :
    weekly_analysis (some dsNoDash) none none = Except.error () := by
  decide

/-- C10 (amended): when every week key splits at `'-'` into at least two
parts (as every builder-produced key does), `weekly_analysis` raises no
exception; a key whose parts then fail the year/week-number parse is caught
locally in the `try`-block — its row keeps the generic degraded Date Range
`"Week <raw-key>"` while the label is still `"<part0> Week <part1>"`.  Only
a key with fewer than two parts makes the label computation (outside the
`try`) raise, which is the corrected scope of the claim's never-propagates
guarantee. -/
theorem claim_C10 (rows : List Record) (p l : Option String)
    (hsplit : ∀ r ∈ rows, 2 ≤ (splitDash r.week).length) :
    (∃ res, weekly_analysis (some rows) p l = Except.ok res) ∧
    (∀ w y u rest, splitDash w = y :: u :: rest →
      weekDisplay w = Except.ok (y ++ " Week " ++ u) ∧
      (weekPartsToMonday y u = none → weekDateRange w = "Week " ++ w)) := by
  constructor
  · by_cases h0 : rows.isEmpty
    · exact ⟨none, by simp [weekly_analysis, h0]⟩
    · by_cases h1 : (labFilter l (profileFilter p rows)).isEmpty
      · exact ⟨none, by simp [weekly_analysis, h0, h1]⟩
      · have hok : ∀ w ∈ stableSortByStrKey (fun k => k)
            (pdUnique ((labFilter l (profileFilter p rows)).map (fun r => r.week))),
            ∃ ys, weeklyWeekRows (labFilter l (profileFilter p rows)) w = Except.ok ys := by
          intro w hwmem
          have hmem := mem_of_mem_pdUnique ((mem_stableSortByStrKey _ _ _).mp hwmem)
          obtain ⟨r, hr, hrw⟩ := List.mem_map.mp hmem
          have hr2 : r ∈ rows := mem_of_mem_profileFilter (mem_of_mem_labFilter hr)
          have hlen := hsplit r hr2
          rw [hrw] at hlen
          have hdisp : ∃ s, weekDisplay w = Except.ok s := by
            unfold weekDisplay
            cases hsp : splitDash w with
            | nil => rw [hsp] at hlen; simp at hlen
            | cons a tl =>
              cases tl with
              | nil => rw [hsp] at hlen; simp at hlen
              | cons b tl2 => exact ⟨a ++ " Week " ++ b, rfl⟩
          obtain ⟨s, hds⟩ := hdisp
          obtain ⟨ys, hys, hl2⟩ := exMap_ok_of_forall
            (weeklyRowOf ((labFilter l (profileFilter p rows)).filter (fun r => r.week == w)) w)
            (pdUnique (((labFilter l (profileFilter p rows)).filter
              (fun r => r.week == w)).map (fun r => r.lab_name)))
            (fun lab hlab => by
              unfold weeklyRowOf
              rw [hds]
              exact ⟨_, rfl⟩)
          exact ⟨ys, by unfold weeklyWeekRows; exact hys⟩
        obtain ⟨rowss, hrowss, hlen3⟩ := exMap_ok_of_forall _ _ hok
        have hb : weeklyBuild (labFilter l (profileFilter p rows)) =
            Except.ok rowss.flatten := by
          unfold weeklyBuild
          rw [hrowss]
        by_cases h2 : rowss.flatten.isEmpty
        · exact ⟨some rowss.flatten, by simp [weekly_analysis, h0, h1, hb, h2]⟩
        · exact ⟨some (sortValuesByCellKey (fun row => row.lab_name) rowss.flatten),
            by simp [weekly_analysis, h0, h1, hb, h2]⟩
  · intro w y u rest hsp
    constructor
    · unfold weekDisplay
      rw [hsp]
    · intro hnone
      unfold weekDateRange
      rw [hsp]
      simp only [hnone]

/-- C10 witness: the record with week key `"2024-xx"` (two parts, failing
the year/week parse) produces a table with the degraded range and no
exception. -/
theorem claim_C10_witness :
    (∀ r ∈ dsDashBad, 2 ≤ (splitDash r.week).length) ∧
    (∃ res, weekly_analysis (some dsDashBad) none none = Except.ok res) ∧
    weekPartsToMonday "2024" "xx" = none ∧
    weekDateRange "2024-xx" = "Week " ++ "2024-xx" := by
  have h := claim_C10 dsDashBad none none (by decide)
  exact ⟨by decide, h.1, by decide, (h.2 "2024-xx" "2024" "xx" [] (by decide)).2 (by decide)⟩
